import Mathlib

/-!
Shallow embedding of the core of `src/script.py` (Caniche TXT Aligner):
the virtual table / line-store class `VirtualTableWidget`, the save paths
of `MainWindow.saveChanges` / `MainWindow.saveAs`, and the line-reading
loop of `FileLoaderWorker.load_file`.

UI-only effects (repainting, row heights, selection, scrolling, the
line-number widget column, progress dialogs, timers, signals that carry
no data) are omitted.  Everything that touches the two in-memory line
sequences, `total_rows`, the `modified_rows` set, or the materialized
cells of the two content columns is modelled.  Row and column indices
coming from the Python API are modelled as `Int` (Python integers can be
negative); indices coming from Qt callbacks, which are always
non-negative, are modelled as `Nat`.
-/

namespace CanicheAligner

/-- Number of additional rows to materialize above and below the visible
range: `self.visible_rows_buffer = 50` (src/script.py:199). -/
def visible_rows_buffer : Nat := 50

/-- Number of table columns: line-number column 0 plus the two content
columns (`self.setColumnCount(3)`, src/script.py:203). -/
def columnCount : Nat := 3

/-- State of a `VirtualTableWidget`:
`file1_content` / `file2_content` are the authoritative in-memory line
sequences, `total_rows` the tracked row count, `modified_rows` the Python
`set` of modified row indices (a set of Python ints, hence `Finset Int`).
`rowCount` is the Qt table's current number of rows and `items col row`
the text of the `QTableWidgetItem` at one cell (`none` when no item has
been created there).  The line-number widgets of column 0 are
presentation-only and not modelled. -/
structure TableState where
  file1_content : List String
  file2_content : List String
  total_rows : Nat
  modified_rows : Finset Int
  rowCount : Nat
  items : Nat → Nat → Option String

/-- The state built by `VirtualTableWidget.__init__` (src/script.py:190):
empty contents, `total_rows = 0`, empty modified set, no table rows. -/
def initialState : TableState :=
  { file1_content := []
  , file2_content := []
  , total_rows := 0
  , modified_rows := ∅
  , rowCount := 0
  , items := fun _ _ => none }

/-- Qt `self.item(row, col)`: no item exists at a row outside the current
row count. -/
def tableItem (s : TableState) (row col : Nat) : Option String :=
  if row < s.rowCount then s.items col row else none

/-- Qt `self.setItem(row, col, item)` / `item.setText(text)`: stores the
text at one cell; Qt discards a `setItem` outside the current row count
(inside the source, `setText` is only ever reached through an item
obtained from `self.item`, so its row is always inside the table). -/
def TableState.setItem (s : TableState) (row col : Nat) (text : String) : TableState :=
  if row < s.rowCount then
    { s with items := fun c r => if c = col ∧ r = row then some text else s.items c r }
  else s

/-- Qt `self.setRowCount(n)`: rows added by growing hold no items, rows
removed by shrinking lose their items. -/
def TableState.setRowCount (s : TableState) (n : Nat) : TableState :=
  { s with rowCount := n
         , items := fun c r => if r < s.rowCount ∧ r < n then s.items c r else none }

/-- `getContent(column)` (src/script.py:475-481); `.copy()` is the
identity on immutable Lean lists. -/
def getContent (s : TableState) (column : Nat) : List String :=
  if column = 1 then s.file1_content
  else if column = 2 then s.file2_content
  else []

/-- Resolution of a Python list index: a negative index counts from the
end of the list (`l[-1]` is the last element). -/
def pyIdx (len : Nat) (i : Int) : Nat :=
  if i < 0 then ((len : Int) + i).toNat else i.toNat

/-- Python `l[i]` on a list of strings, totalised with `""`; every use in
the embedding is guarded exactly as the source guards the access. -/
def pyGet (l : List String) (i : Int) : String :=
  l.getD (pyIdx l.length i) ""

/-- Python `l[i], l[j] = l[j], l[i]`: both right-hand sides are read
before the two assignments happen. -/
def pySwap (l : List String) (i j : Int) : List String :=
  (l.set (pyIdx l.length i) (pyGet l j)).set (pyIdx l.length j) (pyGet l i)

/-- `handleCellChange(row, column)` (src/script.py:240-253).  `text` is
the current text of the just-edited item, which the source reads back
from the table as `self.item(row, column).text()`; the `rowModified`
signal and the row-height adjustment are UI-only.  `row` comes from the
Qt `cellChanged` signal and is therefore non-negative. -/
def handleCellChange (s : TableState) (row col : Nat) (text : String) : TableState :=
  if 0 < col then
    let s1 := { s with modified_rows := insert (row : Int) s.modified_rows }
    if col = 1 ∧ row < s1.file1_content.length then
      { s1 with file1_content := s1.file1_content.set row text }
    else if col = 2 ∧ row < s1.file2_content.length then
      { s1 with file2_content := s1.file2_content.set row text }
    else s1
  else s

/-- Body of the inner loop of `loadContentForRows` for one `(row, col)`
cell (src/script.py:305-325): a missing item is created with the store's
content (empty when the row is beyond that column's length); an existing
but empty item is overwritten when the store holds non-empty content
there. -/
def loadCellStep (s : TableState) (row col : Nat) : TableState :=
  match tableItem s row col with
  | none =>
      let content :=
        if col = 1 ∧ row < s.file1_content.length then s.file1_content.getD row ""
        else if col = 2 ∧ row < s.file2_content.length then s.file2_content.getD row ""
        else ""
      s.setItem row col content
  | some t =>
      if t = "" then
        if col = 1 ∧ row < s.file1_content.length ∧ s.file1_content.getD row "" ≠ "" then
          s.setItem row col (s.file1_content.getD row "")
        else if col = 2 ∧ row < s.file2_content.length ∧ s.file2_content.getD row "" ≠ "" then
          s.setItem row col (s.file2_content.getD row "")
        else s
      else s

/-- `for col in range(1, 3)` of `loadContentForRows` for one row. -/
def loadRowStep (s : TableState) (row : Nat) : TableState :=
  loadCellStep (loadCellStep s row 1) row 2

/-- Processes `n` consecutive rows starting at `start`. -/
def loadContentForRowsAux (s : TableState) (start : Nat) : Nat → TableState
  | 0 => s
  | n + 1 => loadContentForRowsAux (loadRowStep s start) (start + 1) n

/-- `loadContentForRows(start_row, end_row)` (src/script.py:303-325):
`for row in range(start_row, end_row + 1)`. -/
def loadContentForRows (s : TableState) (start_row end_row : Nat) : TableState :=
  loadContentForRowsAux s start_row (end_row + 1 - start_row)

/-- `loadVisibleRows` (src/script.py:276-301), with the visible range
`(first_visible, last_visible)` returned by `visibleRowRange()` passed in
as parameters (it is derived from viewport geometry, always
non-negative).  `max(0, first_visible - buffer)` is truncated `Nat`
subtraction here.  The `LineNumberDelegate` widgets created for column 0
are presentation-only and omitted; growing via `setRowCount` gives the
new rows no items, as in Qt. -/
def loadVisibleRows (s : TableState) (first_visible last_visible : Nat) : TableState :=
  if s.total_rows = 0 then s
  else
    let start_row := first_visible - visible_rows_buffer
    let end_row := min (s.total_rows - 1) (last_visible + visible_rows_buffer)
    let s1 := if s.rowCount ≤ end_row then s.setRowCount (end_row + 1) else s
    loadContentForRows s1 start_row end_row

/-- `setContentFromFile(column, content)` (src/script.py:333-347).  The
deferred `forceVisibleUpdate` refresh only rewrites visible cells from
the store and is UI-only. -/
def setContentFromFile (s : TableState) (column : Nat) (content : List String)
    (first_visible last_visible : Nat) : TableState :=
  let s1 :=
    if column = 1 then { s with file1_content := content }
    else if column = 2 then { s with file2_content := content }
    else s
  let s2 := { s1 with total_rows := max s1.file1_content.length s1.file2_content.length }
  loadVisibleRows s2 first_visible last_visible

/-- `equalizeFiles()` (src/script.py:349-361): extends the shorter file
with empty lines up to `self.total_rows`. -/
def equalizeFiles (s : TableState) : TableState :=
  let max_rows := s.total_rows
  let f1 :=
    if s.file1_content.length < max_rows then
      s.file1_content ++ List.replicate (max_rows - s.file1_content.length) ""
    else s.file1_content
  let f2 :=
    if s.file2_content.length < max_rows then
      s.file2_content ++ List.replicate (max_rows - s.file2_content.length) ""
    else s.file2_content
  { s with file1_content := f1, file2_content := f2 }

/-- Direction argument of `moveRow`: the source compares the string
argument against `'up'`, anything else means down. -/
inductive MoveDirection where
  | up
  | down
deriving DecidableEq

/-- `target_row = row_index - 1 if direction == 'up' else row_index + 1`
(src/script.py:365). -/
def moveTarget (row_index : Int) (direction : MoveDirection) : Int :=
  if direction = MoveDirection.up then row_index - 1 else row_index + 1

/-- Qt `self.item(row, col)` for a possibly negative row index: Qt
returns no item for a negative row (no Python-style wrap-around). -/
def tableItemI (s : TableState) (row : Int) (col : Nat) : Option String :=
  if 0 ≤ row then tableItem s row.toNat col else none

/-- `setItem` / `setText` for a possibly negative row index. -/
def TableState.setItemI (s : TableState) (row : Int) (col : Nat) (text : String) : TableState :=
  if 0 ≤ row then s.setItem row.toNat col text else s

/-- One column of the cell-text exchange inside `moveRow`
(src/script.py:383-392): the two texts are swapped only when both cells
already hold items. -/
def swapItemTexts (s : TableState) (rowA rowB : Int) (col : Nat) : TableState :=
  match tableItemI s rowA col, tableItemI s rowB col with
  | some ta, some tb => (s.setItemI rowA col tb).setItemI rowB col ta
  | _, _ => s

/-- `moveRow(row_index, direction)` (src/script.py:363-407): bounds check
on the target only; per-column in-memory swap guarded by
`row_index < len and target_row < len` (Python comparisons, so a negative
`row_index` passes); cell-text exchange for the two content columns; both
indices added to `modified_rows`.  Row-height adjustment and re-selection
are UI-only. -/
def moveRow (s : TableState) (row_index : Int) (direction : MoveDirection) :
    Bool × TableState :=
  let target_row := moveTarget row_index direction
  if target_row < 0 ∨ (s.total_rows : Int) ≤ target_row then (false, s)
  else
    let f1 :=
      if row_index < (s.file1_content.length : Int) ∧
          target_row < (s.file1_content.length : Int) then
        pySwap s.file1_content row_index target_row
      else s.file1_content
    let f2 :=
      if row_index < (s.file2_content.length : Int) ∧
          target_row < (s.file2_content.length : Int) then
        pySwap s.file2_content row_index target_row
      else s.file2_content
    let s1 := { s with file1_content := f1, file2_content := f2 }
    let s2 := swapItemTexts (swapItemTexts s1 row_index target_row 1) row_index target_row 2
    let s3 := { s2 with modified_rows := insert target_row (insert row_index s2.modified_rows) }
    (true, s3)

/-- `deleteRow(row_index)` (src/script.py:409-440): bounds check, removal
from each in-memory column that actually contains the index, decrement of
`total_rows`, Qt `removeRow` (later rows shift up by one), and the
re-indexing loop over `modified_rows` (each member below the index is
kept, each member above it shifts down by one, a member equal to it is
dropped).  `updateNumberColumn` only rewrites the presentation column. -/
def deleteRow (s : TableState) (row_index : Int) : Bool × TableState :=
  if row_index < 0 ∨ (s.total_rows : Int) ≤ row_index then (false, s)
  else
    let n := row_index.toNat
    let f1 := if n < s.file1_content.length then s.file1_content.eraseIdx n else s.file1_content
    let f2 := if n < s.file2_content.length then s.file2_content.eraseIdx n else s.file2_content
    let s1 := { s with file1_content := f1, file2_content := f2
                     , total_rows := s.total_rows - 1 }
    let s2 :=
      if n < s1.rowCount then
        { s1 with rowCount := s1.rowCount - 1
                , items := fun c r => if r < n then s1.items c r else s1.items c (r + 1) }
      else s1
    let nm :=
      s.modified_rows.biUnion fun j =>
        if j < row_index then {j} else if row_index < j then {j - 1} else ∅
    (true, { s2 with modified_rows := nm })

/-- `addEmptyRow()` (src/script.py:442-473), with `last_visible` from
`visibleRowRange()` passed in as a parameter: appends an empty line to
both columns, increments `total_rows`, and materializes the new table row
(with two empty items) when it lies within the visible range plus buffer.
Selection, scrolling and row height are UI-only.  Returns the new row's
index together with the new state. -/
def addEmptyRow (s : TableState) (last_visible : Nat) : Nat × TableState :=
  let s1 := { s with file1_content := s.file1_content ++ [""]
                   , file2_content := s.file2_content ++ [""]
                   , total_rows := s.total_rows + 1 }
  let s2 :=
    if s1.total_rows - 1 ≤ last_visible + visible_rows_buffer then
      let row_count := s1.rowCount
      let s' := s1.setRowCount (row_count + 1)
      (s'.setItem row_count 1 "").setItem row_count 2 ""
    else s1
  (s1.total_rows - 1, s2)

/-- The table reset performed by `reloadFiles` before re-loading
(src/script.py:1141-1145): `setRowCount(0)` discards every item, both
line sequences are cleared and `total_rows` is reset to 0. -/
def reloadClear (s : TableState) : TableState :=
  { s.setRowCount 0 with file1_content := [], file2_content := [], total_rows := 0 }

/-- Python `sep.join(content)`. -/
def pyJoin (sep : String) : List String → String
  | [] => ""
  | [x] => x
  | x :: y :: xs => x ++ sep ++ pyJoin sep (y :: xs)

/-- `batch_size = 1000` (src/script.py:1026). -/
def batch_size : Nat := 1000

/-- The batched save loop of `MainWindow.saveChanges`
(src/script.py:1025-1038) without cancellation: each iteration of
`for j in range(0, total_lines, batch_size)` writes
`'\n'.join(content[j:j+batch_size])` and, when another batch follows
(`j + batch_size < total_lines`), one newline.  The result is the
concatenation of everything written; at each recursive step the list is
the remaining slice `content[j:]`. -/
def batchedWrite (content : List String) : String :=
  if content.isEmpty then ""
  else
    pyJoin "\n" (content.take batch_size) ++
      (if _h : batch_size < content.length then "\n" ++ batchedWrite (content.drop batch_size)
       else "")
termination_by content.length
decreasing_by
  have hb : batch_size = 1000 := rfl
  simp only [List.length_drop]
  omega

/-- The unbatched save path (src/script.py:1045-1046 and the `saveAs`
write at src/script.py:1117-1118): a single write of
`'\n'.join(content)`. -/
def plainWrite (content : List String) : String :=
  pyJoin "\n" content

/-- Outcome signal of a load: `finished(content)` or `error(message)`
(src/script.py:88-89). -/
inductive LoadOutcome where
  | finished (content : List String)
  | loadError (msg : String)

/-- The content-reading loop of `FileLoaderWorker.load_file`
(src/script.py:108-118): the cooperative cancellation flag is sampled
once per line, before the line is appended; `isCanceled i` is the value
the check observes at iteration `i` (the flag is set asynchronously by
`cancel()`, so it is modelled as an oracle over iteration indices).
Progress signals carry no content and are omitted. -/
def load_file_loop : List String → Nat → (Nat → Bool) → List String
  | [], _, _ => []
  | line :: rest, i, isCanceled =>
      if isCanceled i then [] else line :: load_file_loop rest (i + 1) isCanceled

/-- `FileLoaderWorker.load_file` (src/script.py:96-123) on a readable
file whose logical lines are `lines` (each already stripped of its line
terminator, as by `line.rstrip('\n')`): the loop runs to the end or
breaks on cancellation, and `finished` is emitted with whatever was
collected.  The `except` branch, the only place the `error` signal is
emitted, is reachable only through an I/O failure, which a readable file
does not produce; the line-counting first pass only feeds the progress
percentages. -/
def load_file (lines : List String) (isCanceled : Nat → Bool) : LoadOutcome :=
  LoadOutcome.finished (load_file_loop lines 0 isCanceled)

/-- The Line Store invariant of the spec's data model:
`totalRows = max(len(lines[1]), len(lines[2]))`. -/
abbrev StoreInv (s : TableState) : Prop :=
  s.total_rows = max s.file1_content.length s.file2_content.length

/-- Sample store used by claim scenarios: columns `["a","b","c"]` and
`["x","y",""]`, three rows, nothing materialized. -/
def sampleABC : TableState :=
  { file1_content := ["a", "b", "c"]
  , file2_content := ["x", "y", ""]
  , total_rows := 3
  , modified_rows := ∅
  , rowCount := 0
  , items := fun _ _ => none }

/-- Sample store with columns `["a","b","c"]` and `["x","y","z"]`. -/
def sampleXYZ : TableState :=
  { file1_content := ["a", "b", "c"]
  , file2_content := ["x", "y", "z"]
  , total_rows := 3
  , modified_rows := ∅
  , rowCount := 0
  , items := fun _ _ => none }

/-- Sample one-row store. -/
def sampleOne : TableState :=
  { file1_content := ["a"]
  , file2_content := ["x"]
  , total_rows := 1
  , modified_rows := ∅
  , rowCount := 0
  , items := fun _ _ => none }

/-- The scenario state of the spec: file1 `["a","b","c"]` loaded, then
file2 `["x","y"]`, then `equalizeFiles()` (viewport reporting rows
`[0, 0]`). -/
def scenarioLoaded : TableState :=
  equalizeFiles
    (setContentFromFile (setContentFromFile initialState 1 ["a", "b", "c"] 0 0)
      2 ["x", "y"] 0 0)

/-! ### Field-preservation helper lemmas -/

@[simp] theorem setItem_file1 (s : TableState) (row col : Nat) (t : String) :
    (s.setItem row col t).file1_content = s.file1_content := by
  unfold TableState.setItem; split <;> rfl

@[simp] theorem setItem_file2 (s : TableState) (row col : Nat) (t : String) :
    (s.setItem row col t).file2_content = s.file2_content := by
  unfold TableState.setItem; split <;> rfl

@[simp] theorem setItem_total (s : TableState) (row col : Nat) (t : String) :
    (s.setItem row col t).total_rows = s.total_rows := by
  unfold TableState.setItem; split <;> rfl

@[simp] theorem setItem_modified (s : TableState) (row col : Nat) (t : String) :
    (s.setItem row col t).modified_rows = s.modified_rows := by
  unfold TableState.setItem; split <;> rfl

@[simp] theorem setItem_rowCount (s : TableState) (row col : Nat) (t : String) :
    (s.setItem row col t).rowCount = s.rowCount := by
  unfold TableState.setItem; split <;> rfl

@[simp] theorem setRowCount_file1 (s : TableState) (n : Nat) :
    (s.setRowCount n).file1_content = s.file1_content := rfl

@[simp] theorem setRowCount_file2 (s : TableState) (n : Nat) :
    (s.setRowCount n).file2_content = s.file2_content := rfl

@[simp] theorem setRowCount_total (s : TableState) (n : Nat) :
    (s.setRowCount n).total_rows = s.total_rows := rfl

@[simp] theorem setRowCount_modified (s : TableState) (n : Nat) :
    (s.setRowCount n).modified_rows = s.modified_rows := rfl

@[simp] theorem setRowCount_rowCount (s : TableState) (n : Nat) :
    (s.setRowCount n).rowCount = n := rfl

@[simp] theorem setItemI_file1 (s : TableState) (row : Int) (col : Nat) (t : String) :
    (s.setItemI row col t).file1_content = s.file1_content := by
  unfold TableState.setItemI; split <;> simp

@[simp] theorem setItemI_file2 (s : TableState) (row : Int) (col : Nat) (t : String) :
    (s.setItemI row col t).file2_content = s.file2_content := by
  unfold TableState.setItemI; split <;> simp

@[simp] theorem setItemI_total (s : TableState) (row : Int) (col : Nat) (t : String) :
    (s.setItemI row col t).total_rows = s.total_rows := by
  unfold TableState.setItemI; split <;> simp

@[simp] theorem setItemI_modified (s : TableState) (row : Int) (col : Nat) (t : String) :
    (s.setItemI row col t).modified_rows = s.modified_rows := by
  unfold TableState.setItemI; split <;> simp

@[simp] theorem setItemI_rowCount (s : TableState) (row : Int) (col : Nat) (t : String) :
    (s.setItemI row col t).rowCount = s.rowCount := by
  unfold TableState.setItemI; split <;> simp

@[simp] theorem swapItemTexts_file1 (s : TableState) (a b : Int) (col : Nat) :
    (swapItemTexts s a b col).file1_content = s.file1_content := by
  unfold swapItemTexts; split <;> simp

@[simp] theorem swapItemTexts_file2 (s : TableState) (a b : Int) (col : Nat) :
    (swapItemTexts s a b col).file2_content = s.file2_content := by
  unfold swapItemTexts; split <;> simp

@[simp] theorem swapItemTexts_total (s : TableState) (a b : Int) (col : Nat) :
    (swapItemTexts s a b col).total_rows = s.total_rows := by
  unfold swapItemTexts; split <;> simp

@[simp] theorem swapItemTexts_modified (s : TableState) (a b : Int) (col : Nat) :
    (swapItemTexts s a b col).modified_rows = s.modified_rows := by
  unfold swapItemTexts; split <;> simp

@[simp] theorem swapItemTexts_rowCount (s : TableState) (a b : Int) (col : Nat) :
    (swapItemTexts s a b col).rowCount = s.rowCount := by
  unfold swapItemTexts; split <;> simp

theorem loadCellStep_cases (s : TableState) (row col : Nat) :
    loadCellStep s row col = s ∨ ∃ t, loadCellStep s row col = s.setItem row col t := by
  unfold loadCellStep
  split
  · exact Or.inr ⟨_, rfl⟩
  · split
    · split
      · exact Or.inr ⟨_, rfl⟩
      · split
        · exact Or.inr ⟨_, rfl⟩
        · exact Or.inl rfl
    · exact Or.inl rfl

@[simp] theorem loadCellStep_file1 (s : TableState) (row col : Nat) :
    (loadCellStep s row col).file1_content = s.file1_content := by
  rcases loadCellStep_cases s row col with h | ⟨t, h⟩ <;> simp [h]

@[simp] theorem loadCellStep_file2 (s : TableState) (row col : Nat) :
    (loadCellStep s row col).file2_content = s.file2_content := by
  rcases loadCellStep_cases s row col with h | ⟨t, h⟩ <;> simp [h]

@[simp] theorem loadCellStep_total (s : TableState) (row col : Nat) :
    (loadCellStep s row col).total_rows = s.total_rows := by
  rcases loadCellStep_cases s row col with h | ⟨t, h⟩ <;> simp [h]

@[simp] theorem loadCellStep_modified (s : TableState) (row col : Nat) :
    (loadCellStep s row col).modified_rows = s.modified_rows := by
  rcases loadCellStep_cases s row col with h | ⟨t, h⟩ <;> simp [h]

@[simp] theorem loadCellStep_rowCount (s : TableState) (row col : Nat) :
    (loadCellStep s row col).rowCount = s.rowCount := by
  rcases loadCellStep_cases s row col with h | ⟨t, h⟩ <;> simp [h]

@[simp] theorem loadRowStep_file1 (s : TableState) (row : Nat) :
    (loadRowStep s row).file1_content = s.file1_content := by simp [loadRowStep]

@[simp] theorem loadRowStep_file2 (s : TableState) (row : Nat) :
    (loadRowStep s row).file2_content = s.file2_content := by simp [loadRowStep]

@[simp] theorem loadRowStep_total (s : TableState) (row : Nat) :
    (loadRowStep s row).total_rows = s.total_rows := by simp [loadRowStep]

@[simp] theorem loadRowStep_modified (s : TableState) (row : Nat) :
    (loadRowStep s row).modified_rows = s.modified_rows := by simp [loadRowStep]

@[simp] theorem loadRowStep_rowCount (s : TableState) (row : Nat) :
    (loadRowStep s row).rowCount = s.rowCount := by simp [loadRowStep]

@[simp] theorem loadContentForRowsAux_file1 :
    ∀ (n : Nat) (s : TableState) (start : Nat),
      (loadContentForRowsAux s start n).file1_content = s.file1_content := by
  intro n
  induction n with
  | zero => intro s start; rfl
  | succ n ih => intro s start; rw [loadContentForRowsAux, ih]; simp

@[simp] theorem loadContentForRowsAux_file2 :
    ∀ (n : Nat) (s : TableState) (start : Nat),
      (loadContentForRowsAux s start n).file2_content = s.file2_content := by
  intro n
  induction n with
  | zero => intro s start; rfl
  | succ n ih => intro s start; rw [loadContentForRowsAux, ih]; simp

@[simp] theorem loadContentForRowsAux_total :
    ∀ (n : Nat) (s : TableState) (start : Nat),
      (loadContentForRowsAux s start n).total_rows = s.total_rows := by
  intro n
  induction n with
  | zero => intro s start; rfl
  | succ n ih => intro s start; rw [loadContentForRowsAux, ih]; simp

@[simp] theorem loadContentForRowsAux_modified :
    ∀ (n : Nat) (s : TableState) (start : Nat),
      (loadContentForRowsAux s start n).modified_rows = s.modified_rows := by
  intro n
  induction n with
  | zero => intro s start; rfl
  | succ n ih => intro s start; rw [loadContentForRowsAux, ih]; simp

@[simp] theorem loadContentForRowsAux_rowCount :
    ∀ (n : Nat) (s : TableState) (start : Nat),
      (loadContentForRowsAux s start n).rowCount = s.rowCount := by
  intro n
  induction n with
  | zero => intro s start; rfl
  | succ n ih => intro s start; rw [loadContentForRowsAux, ih]; simp

@[simp] theorem loadVisibleRows_file1 (s : TableState) (v0 v1 : Nat) :
    (loadVisibleRows s v0 v1).file1_content = s.file1_content := by
  unfold loadVisibleRows
  split
  · rfl
  · simp only [loadContentForRows, loadContentForRowsAux_file1,
      apply_ite TableState.file1_content, setRowCount_file1, ite_self]

@[simp] theorem loadVisibleRows_file2 (s : TableState) (v0 v1 : Nat) :
    (loadVisibleRows s v0 v1).file2_content = s.file2_content := by
  unfold loadVisibleRows
  split
  · rfl
  · simp only [loadContentForRows, loadContentForRowsAux_file2,
      apply_ite TableState.file2_content, setRowCount_file2, ite_self]

@[simp] theorem loadVisibleRows_total (s : TableState) (v0 v1 : Nat) :
    (loadVisibleRows s v0 v1).total_rows = s.total_rows := by
  unfold loadVisibleRows
  split
  · rfl
  · simp only [loadContentForRows, loadContentForRowsAux_total,
      apply_ite TableState.total_rows, setRowCount_total, ite_self]

@[simp] theorem loadVisibleRows_modified (s : TableState) (v0 v1 : Nat) :
    (loadVisibleRows s v0 v1).modified_rows = s.modified_rows := by
  unfold loadVisibleRows
  split
  · rfl
  · simp only [loadContentForRows, loadContentForRowsAux_modified,
      apply_ite TableState.modified_rows, setRowCount_modified, ite_self]

/-! ### List and Python-indexing helper lemmas -/

theorem getD_set_self (l : List String) (k : Nat) (v : String) (h : k < l.length) :
    (l.set k v).getD k "" = v := by
  simp [List.getD_eq_getElem?_getD, List.getElem?_set_self h]

theorem getD_set_ne (l : List String) (a b : Nat) (v : String) (h : a ≠ b) :
    (l.set a v).getD b "" = l.getD b "" := by
  simp [List.getD_eq_getElem?_getD, List.getElem?_set_ne h]

theorem set_own (l : List String) (k : Nat) (h : k < l.length) :
    l.set k (l.getD k "") = l := by
  apply List.ext_getElem?
  intro n
  by_cases hn : k = n
  · subst hn
    simp [List.getElem?_set_self h, List.getD_eq_getElem?_getD, List.getElem?_eq_getElem h]
  · simp [List.getElem?_set_ne hn]

theorem eraseIdx_of_length_le (l : List String) (k : Nat) (h : l.length ≤ k) :
    l.eraseIdx k = l := List.eraseIdx_eq_self.mpr h

theorem pyIdx_nonneg (len : Nat) (i : Int) (h : 0 ≤ i) : pyIdx len i = i.toNat := by
  unfold pyIdx
  rw [if_neg (by omega)]

@[simp] theorem pySwap_length (l : List String) (i j : Int) :
    (pySwap l i j).length = l.length := by
  simp [pySwap]

theorem pySwap_nonneg (l : List String) (i j : Int) (hi : 0 ≤ i) (hj : 0 ≤ j) :
    pySwap l i j = (l.set i.toNat (l.getD j.toNat "")).set j.toNat (l.getD i.toNat "") := by
  unfold pySwap pyGet
  rw [pyIdx_nonneg _ _ hi, pyIdx_nonneg _ _ hj]

theorem pySwap_getD_fst (l : List String) (i j : Int) (hi : 0 ≤ i) (hj : 0 ≤ j)
    (hij : i ≠ j) (hilen : i < (l.length : Int)) :
    (pySwap l i j).getD i.toNat "" = l.getD j.toNat "" := by
  rw [pySwap_nonneg l i j hi hj]
  rw [getD_set_ne _ _ _ _ (by omega)]
  exact getD_set_self _ _ _ (by omega)

theorem pySwap_getD_snd (l : List String) (i j : Int) (hi : 0 ≤ i) (hj : 0 ≤ j)
    (hjlen : j < (l.length : Int)) :
    (pySwap l i j).getD j.toNat "" = l.getD i.toNat "" := by
  rw [pySwap_nonneg l i j hi hj]
  exact getD_set_self _ _ _ (by simpa using (by omega : j.toNat < l.length))

theorem pySwap_getD_other (l : List String) (i j : Int) (hi : 0 ≤ i) (hj : 0 ≤ j)
    (k : Nat) (hki : k ≠ i.toNat) (hkj : k ≠ j.toNat) :
    (pySwap l i j).getD k "" = l.getD k "" := by
  rw [pySwap_nonneg l i j hi hj]
  rw [getD_set_ne _ _ _ _ (by omega), getD_set_ne _ _ _ _ (by omega)]

theorem pySwap_pySwap (l : List String) (i j : Int) (hi : 0 ≤ i) (hj : 0 ≤ j)
    (hij : i ≠ j) (hilen : i < (l.length : Int)) (hjlen : j < (l.length : Int)) :
    pySwap (pySwap l i j) j i = l := by
  rw [pySwap_nonneg (pySwap l i j) j i hj hi]
  rw [pySwap_getD_fst l i j hi hj hij hilen, pySwap_getD_snd l i j hi hj hjlen]
  rw [pySwap_nonneg l i j hi hj]
  rw [List.set_set]
  have hcomm := List.set_comm (l.getD j.toNat "") (l.getD i.toNat "")
    (l.set i.toNat (l.getD j.toNat "")) (show j.toNat ≠ i.toNat by omega)
  rw [hcomm]
  rw [List.set_set]
  rw [set_own l i.toNat (by omega)]
  exact set_own l j.toNat (by omega)

/-! ### Item-level lemmas for the materialization pass -/

theorem setItem_items_ne (s : TableState) (row col : Nat) (t : String)
    (c r : Nat) (h : ¬(c = col ∧ r = row)) :
    (s.setItem row col t).items c r = s.items c r := by
  unfold TableState.setItem
  split
  · simp only []
    rw [if_neg h]
  · rfl

theorem loadCellStep_items_ne (s : TableState) (row col : Nat)
    (c r : Nat) (h : ¬(c = col ∧ r = row)) :
    (loadCellStep s row col).items c r = s.items c r := by
  rcases loadCellStep_cases s row col with hc | ⟨t, hc⟩
  · rw [hc]
  · rw [hc, setItem_items_ne s row col t c r h]

theorem loadRowStep_items_ne (s : TableState) (row : Nat)
    (c r : Nat) (h : r ≠ row) :
    (loadRowStep s row).items c r = s.items c r := by
  unfold loadRowStep
  rw [loadCellStep_items_ne _ _ _ _ _ (by tauto), loadCellStep_items_ne _ _ _ _ _ (by tauto)]

theorem loadContentForRowsAux_items_frame :
    ∀ (n : Nat) (s : TableState) (start : Nat) (c r : Nat),
      (r < start ∨ start + n ≤ r) →
      (loadContentForRowsAux s start n).items c r = s.items c r := by
  intro n
  induction n with
  | zero => intro s start c r _; rfl
  | succ n ih =>
      intro s start c r hr
      rw [loadContentForRowsAux]
      rw [ih (loadRowStep s start) (start + 1) c r (by omega)]
      exact loadRowStep_items_ne s start c r (by omega)

/-- The text a materialization pass leaves in one cell, as a function of
the store's content at that cell and the cell's previous state. -/
def loadedText (stored : String) : Option String → String
  | none => stored
  | some t => if t = "" then stored else t

theorem tableItem_of_items (s : TableState) (row col : Nat) (h : row < s.rowCount) :
    tableItem s row col = s.items col row := by
  unfold tableItem
  rw [if_pos h]

theorem loadCellStep_item_eval (s : TableState) (row col : Nat)
    (hcol : col = 1 ∨ col = 2) (hrow : row < s.rowCount) :
    (loadCellStep s row col).items col row =
      some (loadedText ((getContent s col).getD row "") (tableItem s row col)) := by
  have hset : ∀ t : String, (s.setItem row col t).items col row = some t := by
    intro t
    unfold TableState.setItem
    rw [if_pos hrow]
    simp
  have hitems : tableItem s row col = s.items col row := tableItem_of_items s row col hrow
  unfold loadCellStep
  split
  · rename_i heq
    rw [heq, hset]
    rcases hcol with hcol | hcol <;> subst hcol
    · by_cases h1 : row < s.file1_content.length
      · simp [getContent, loadedText, h1]
      · have hnone : s.file1_content[row]? = none := List.getElem?_eq_none (by omega)
        simp [getContent, loadedText, h1, List.getD_eq_getElem?_getD, hnone]
    · by_cases h2 : row < s.file2_content.length
      · simp [getContent, loadedText, h2]
      · have hnone : s.file2_content[row]? = none := List.getElem?_eq_none (by omega)
        simp [getContent, loadedText, h2, List.getD_eq_getElem?_getD, hnone]
  · rename_i t heq
    rw [heq]
    by_cases ht : t = ""
    · subst ht
      rw [if_pos rfl]
      rcases hcol with hcol | hcol <;> subst hcol
      · by_cases h1 : s.file1_content.getD row "" = ""
        · have h1q : s.file1_content[row]?.getD "" = "" := by
            simpa [List.getD_eq_getElem?_getD] using h1
          rw [if_neg (by simp [List.getD_eq_getElem?_getD, h1q]), if_neg (by simp)]
          rw [← hitems, heq]
          simp [getContent, loadedText, List.getD_eq_getElem?_getD, h1q]
        · have hlen : row < s.file1_content.length := by
            by_contra hc
            have hnone : s.file1_content[row]? = none := List.getElem?_eq_none (by omega)
            exact h1 (by simp [List.getD_eq_getElem?_getD, hnone])
          rw [if_pos ⟨rfl, hlen, h1⟩, hset]
          simp [getContent, loadedText]
      · by_cases h2 : s.file2_content.getD row "" = ""
        · have h2q : s.file2_content[row]?.getD "" = "" := by
            simpa [List.getD_eq_getElem?_getD] using h2
          rw [if_neg (by simp), if_neg (by simp [List.getD_eq_getElem?_getD, h2q])]
          rw [← hitems, heq]
          simp [getContent, loadedText, List.getD_eq_getElem?_getD, h2q]
        · have hlen : row < s.file2_content.length := by
            by_contra hc
            have hnone : s.file2_content[row]? = none := List.getElem?_eq_none (by omega)
            exact h2 (by simp [List.getD_eq_getElem?_getD, hnone])
          rw [if_neg (by simp), if_pos ⟨rfl, hlen, h2⟩, hset]
          simp [getContent, loadedText]
    · rw [if_neg ht]
      rw [← hitems, heq]
      simp [loadedText, ht]

theorem setRowCount_items (s : TableState) (n c r : Nat) :
    (s.setRowCount n).items c r = if r < s.rowCount ∧ r < n then s.items c r else none := rfl

theorem loadRowStep_item_eval (s : TableState) (row col : Nat)
    (hcol : col = 1 ∨ col = 2) (hrow : row < s.rowCount) :
    (loadRowStep s row).items col row =
      some (loadedText ((getContent s col).getD row "") (tableItem s row col)) := by
  unfold loadRowStep
  rcases hcol with hcol | hcol <;> subst hcol
  · rw [loadCellStep_items_ne _ _ _ _ _ (by simp)]
    exact loadCellStep_item_eval s row 1 (Or.inl rfl) hrow
  · have hrow2 : row < (loadCellStep s row 1).rowCount := by simpa using hrow
    rw [loadCellStep_item_eval (loadCellStep s row 1) row 2 (Or.inr rfl) hrow2]
    have hc : getContent (loadCellStep s row 1) 2 = getContent s 2 := by
      simp [getContent]
    have ht : tableItem (loadCellStep s row 1) row 2 = tableItem s row 2 := by
      unfold tableItem
      rw [loadCellStep_rowCount]
      by_cases h : row < s.rowCount
      · rw [if_pos h, if_pos h, loadCellStep_items_ne _ _ _ _ _ (by simp)]
      · rw [if_neg h, if_neg h]
    rw [hc, ht]

theorem loadContentForRowsAux_item_eval :
    ∀ (n : Nat) (s : TableState) (start r col : Nat),
      (col = 1 ∨ col = 2) → start ≤ r → r < start + n → r < s.rowCount →
      (loadContentForRowsAux s start n).items col r =
        some (loadedText ((getContent s col).getD r "") (tableItem s r col)) := by
  intro n
  induction n with
  | zero => intro s start r col _ h1 h2 _; omega
  | succ n ih =>
      intro s start r col hcol h1 h2 hr
      rw [loadContentForRowsAux]
      by_cases hr0 : r = start
      · subst hr0
        rw [loadContentForRowsAux_items_frame n (loadRowStep s r) (r + 1) col r (by omega)]
        exact loadRowStep_item_eval s r col hcol hr
      · rw [ih (loadRowStep s start) (start + 1) r col hcol (by omega) (by omega)
          (by simpa using hr)]
        have hc : getContent (loadRowStep s start) col = getContent s col := by
          simp [getContent]
        have ht : tableItem (loadRowStep s start) r col = tableItem s r col := by
          unfold tableItem
          rw [loadRowStep_rowCount]
          by_cases h : r < s.rowCount
          · rw [if_pos h, if_pos h, loadRowStep_items_ne _ _ _ _ (by omega)]
          · rw [if_neg h, if_neg h]
        rw [hc, ht]

theorem loadVisibleRows_eq (s : TableState) (v0 v1 : Nat) (h : ¬s.total_rows = 0) :
    loadVisibleRows s v0 v1 =
      loadContentForRows
        (if s.rowCount ≤ min (s.total_rows - 1) (v1 + visible_rows_buffer) then
          s.setRowCount (min (s.total_rows - 1) (v1 + visible_rows_buffer) + 1)
        else s)
        (v0 - visible_rows_buffer) (min (s.total_rows - 1) (v1 + visible_rows_buffer)) := by
  unfold loadVisibleRows
  rw [if_neg h]

/-- Claim C1: after a materialization pass `loadVisibleRows` on a store
with `totalRows > 0`, with visible range `[v0, v1]` and buffer margin 50,
every row `r` in `[max(0, v0-50), min(totalRows-1, v1+50)]` has, for each
content column, a materialized cell: a missing cell is created populated
from the store, an existing-but-empty cell ends up holding the store's
content, an existing non-empty cell is kept, and whenever the store holds
non-empty content at `(r, col)` the resulting cell text is non-empty. -/
theorem loadVisibleRows_materializes_target_range (s : TableState) (v0 v1 : Nat)
    (htot : 0 < s.total_rows) (col : Nat) (hcol : col = 1 ∨ col = 2) (r : Nat)
    (hr1 : v0 - visible_rows_buffer ≤ r)
    (hr2 : r ≤ min (s.total_rows - 1) (v1 + visible_rows_buffer)) :
    (tableItem s r col = none →
      tableItem (loadVisibleRows s v0 v1) r col = some ((getContent s col).getD r ""))
    ∧ (tableItem s r col = some "" →
      tableItem (loadVisibleRows s v0 v1) r col = some ((getContent s col).getD r ""))
    ∧ (∀ t, tableItem s r col = some t → t ≠ "" →
      tableItem (loadVisibleRows s v0 v1) r col = some t)
    ∧ ((getContent s col).getD r "" ≠ "" →
      ∃ t, tableItem (loadVisibleRows s v0 v1) r col = some t ∧ t ≠ "") := by
  have key : tableItem (loadVisibleRows s v0 v1) r col =
      some (loadedText ((getContent s col).getD r "") (tableItem s r col)) := by
    rw [loadVisibleRows_eq s v0 v1 (by omega)]
    set end_row := min (s.total_rows - 1) (v1 + visible_rows_buffer) with hend
    set s1 := if s.rowCount ≤ end_row then s.setRowCount (end_row + 1) else s with hs1
    have hrc : r < s1.rowCount := by
      rw [hs1]
      split
      · rw [setRowCount_rowCount]; omega
      · omega
    have hfile : getContent s1 col = getContent s col := by
      rw [hs1]; split <;> simp [getContent]
    have hti : tableItem s1 r col = tableItem s r col := by
      rw [hs1]
      split
      · unfold tableItem
        rw [setRowCount_rowCount, setRowCount_items]
        rw [if_pos (show r < end_row + 1 by omega)]
        by_cases h : r < s.rowCount
        · rw [if_pos ⟨h, by omega⟩, if_pos h]
        · rw [if_neg (by tauto), if_neg h]
      · rfl
    have hrc2 : r <
        (loadContentForRowsAux s1 (v0 - visible_rows_buffer)
          (end_row + 1 - (v0 - visible_rows_buffer))).rowCount := by
      rw [loadContentForRowsAux_rowCount]
      exact hrc
    rw [loadContentForRows, tableItem_of_items _ _ _ hrc2]
    rw [loadContentForRowsAux_item_eval _ s1 _ r col hcol hr1 (by omega) hrc]
    rw [hfile, hti]
  refine ⟨?_, ?_, ?_, ?_⟩
  · intro h; rw [key, h]; simp [loadedText]
  · intro h; rw [key, h]; simp [loadedText]
  · intro t h ht; rw [key, h]; simp [loadedText, ht]
  · intro h
    rcases hcase : tableItem s r col with _ | t
    · exact ⟨_, by rw [key, hcase]; simp [loadedText], h⟩
    · by_cases ht : t = ""
      · subst ht
        exact ⟨_, by rw [key, hcase]; simp [loadedText], h⟩
      · exact ⟨t, by rw [key, hcase]; simp [loadedText, ht], ht⟩

/-- Concrete instantiation of claim C1's theorem: the one-row store
`sampleOne` with viewport `[0, 0]`, column 1, row 0. -/
theorem loadVisibleRows_materializes_witness :
    0 < sampleOne.total_rows
    ∧ (0 : Nat) - visible_rows_buffer ≤ 0
    ∧ 0 ≤ min (sampleOne.total_rows - 1) (0 + visible_rows_buffer)
    ∧ ((tableItem sampleOne 0 1 = none →
        tableItem (loadVisibleRows sampleOne 0 0) 0 1 = some ((getContent sampleOne 1).getD 0 ""))
      ∧ (tableItem sampleOne 0 1 = some "" →
        tableItem (loadVisibleRows sampleOne 0 0) 0 1 = some ((getContent sampleOne 1).getD 0 ""))
      ∧ (∀ t, tableItem sampleOne 0 1 = some t → t ≠ "" →
        tableItem (loadVisibleRows sampleOne 0 0) 0 1 = some t)
      ∧ ((getContent sampleOne 1).getD 0 "" ≠ "" →
        ∃ t, tableItem (loadVisibleRows sampleOne 0 0) 0 1 = some t ∧ t ≠ "")) :=
  ⟨by decide, by decide, by decide,
    loadVisibleRows_materializes_target_range sampleOne 0 0 (by decide) 1 (Or.inl rfl) 0
      (by decide) (by decide)⟩

/-! ### deleteRow component lemmas and claim C2 -/

theorem deleteRow_fail (s : TableState) (i : Int)
    (h : i < 0 ∨ (s.total_rows : Int) ≤ i) : deleteRow s i = (false, s) := by
  unfold deleteRow
  rw [if_pos h]

theorem deleteRow_fst (s : TableState) (i : Int)
    (h : ¬(i < 0 ∨ (s.total_rows : Int) ≤ i)) : (deleteRow s i).1 = true := by
  unfold deleteRow
  rw [if_neg h]

theorem deleteRow_snd_file1 (s : TableState) (i : Int)
    (h : ¬(i < 0 ∨ (s.total_rows : Int) ≤ i)) :
    (deleteRow s i).2.file1_content =
      if i.toNat < s.file1_content.length then s.file1_content.eraseIdx i.toNat
      else s.file1_content := by
  unfold deleteRow
  rw [if_neg h]
  simp only [apply_ite TableState.file1_content, ite_self]

theorem deleteRow_snd_file2 (s : TableState) (i : Int)
    (h : ¬(i < 0 ∨ (s.total_rows : Int) ≤ i)) :
    (deleteRow s i).2.file2_content =
      if i.toNat < s.file2_content.length then s.file2_content.eraseIdx i.toNat
      else s.file2_content := by
  unfold deleteRow
  rw [if_neg h]
  simp only [apply_ite TableState.file2_content, ite_self]

theorem deleteRow_snd_total (s : TableState) (i : Int)
    (h : ¬(i < 0 ∨ (s.total_rows : Int) ≤ i)) :
    (deleteRow s i).2.total_rows = s.total_rows - 1 := by
  unfold deleteRow
  rw [if_neg h]
  simp only [apply_ite TableState.total_rows, ite_self]

theorem deleteRow_snd_modified (s : TableState) (i : Int)
    (h : ¬(i < 0 ∨ (s.total_rows : Int) ≤ i)) :
    (deleteRow s i).2.modified_rows =
      s.modified_rows.biUnion fun j =>
        if j < i then {j} else if i < j then {j - 1} else ∅ := by
  unfold deleteRow
  rw [if_neg h]

/-- The per-member re-indexing loop of `deleteRow` computes exactly the
claimed set `{ j | j ∈ m, j < i } ∪ { j - 1 | j ∈ m, j > i }`. -/
theorem reindex_biUnion_eq (m : Finset Int) (i : Int) :
    (m.biUnion fun j => if j < i then {j} else if i < j then {j - 1} else ∅) =
      (m.filter fun j => j < i) ∪ ((m.filter fun j => i < j).image fun j => j - 1) := by
  ext x
  simp only [Finset.mem_biUnion, Finset.mem_union, Finset.mem_filter, Finset.mem_image]
  constructor
  · rintro ⟨j, hj, hx⟩
    by_cases h1 : j < i
    · rw [if_pos h1] at hx
      simp only [Finset.mem_singleton] at hx
      subst hx
      exact Or.inl ⟨hj, h1⟩
    · by_cases h2 : i < j
      · rw [if_neg h1, if_pos h2] at hx
        simp only [Finset.mem_singleton] at hx
        exact Or.inr ⟨j, ⟨hj, h2⟩, hx.symm⟩
      · rw [if_neg h1, if_neg h2] at hx
        simp at hx
  · rintro (⟨hj, h1⟩ | ⟨j, ⟨hj, h2⟩, hx⟩)
    · exact ⟨x, hj, by rw [if_pos h1]; simp⟩
    · exact ⟨j, hj, by rw [if_neg (by omega), if_pos h2]; simp [hx]⟩

/-- Claim C2: `deleteRow i` fails with the state unchanged when `i < 0`
or `i ≥ totalRows`; otherwise it returns success, removes row `i` from
both columns, decrements `totalRows` by exactly 1, and replaces
`modified_rows` by `{ j | j ∈ m, j < i } ∪ { j - 1 | j ∈ m, j > i }` (the
old member `i` itself is dropped: no part of the union keeps `j = i`).
The spec scenario: deleting row 1 of `["a","b","c"]` / `["x","y",""]`
leaves column 1 equal to `["a","c"]` and `totalRows = 2`. -/
theorem deleteRow_spec (s : TableState) (i : Int) :
    (i < 0 ∨ (s.total_rows : Int) ≤ i → deleteRow s i = (false, s))
    ∧ (0 ≤ i → i < (s.total_rows : Int) →
        (deleteRow s i).1 = true
        ∧ (deleteRow s i).2.file1_content = s.file1_content.eraseIdx i.toNat
        ∧ (deleteRow s i).2.file2_content = s.file2_content.eraseIdx i.toNat
        ∧ (deleteRow s i).2.total_rows = s.total_rows - 1
        ∧ (deleteRow s i).2.modified_rows =
            (s.modified_rows.filter fun j => j < i) ∪
              ((s.modified_rows.filter fun j => i < j).image fun j => j - 1))
    ∧ ((deleteRow sampleABC 1).2.file1_content = ["a", "c"]
        ∧ (deleteRow sampleABC 1).2.total_rows = 2) := by
  refine ⟨fun h => deleteRow_fail s i h, fun h0 h1 => ?_, by decide, by decide⟩
  have hg : ¬(i < 0 ∨ (s.total_rows : Int) ≤ i) := by omega
  refine ⟨deleteRow_fst s i hg, ?_, ?_, deleteRow_snd_total s i hg, ?_⟩
  · rw [deleteRow_snd_file1 s i hg]
    split
    · rfl
    · rw [eraseIdx_of_length_le _ _ (by omega)]
  · rw [deleteRow_snd_file2 s i hg]
    split
    · rfl
    · rw [eraseIdx_of_length_le _ _ (by omega)]
  · rw [deleteRow_snd_modified s i hg, reindex_biUnion_eq]

/-- Concrete instantiation of claim C2's theorem: deleting row 1 of the
three-row sample store. -/
theorem deleteRow_spec_witness :
    (0 : Int) ≤ 1 ∧ (1 : Int) < (sampleABC.total_rows : Int)
    ∧ ((deleteRow sampleABC 1).1 = true
      ∧ (deleteRow sampleABC 1).2.file1_content = sampleABC.file1_content.eraseIdx (1 : Int).toNat
      ∧ (deleteRow sampleABC 1).2.file2_content = sampleABC.file2_content.eraseIdx (1 : Int).toNat
      ∧ (deleteRow sampleABC 1).2.total_rows = sampleABC.total_rows - 1
      ∧ (deleteRow sampleABC 1).2.modified_rows =
          (sampleABC.modified_rows.filter fun j => j < 1) ∪
            ((sampleABC.modified_rows.filter fun j => (1 : Int) < j).image fun j => j - 1)) :=
  ⟨by decide, by decide, (deleteRow_spec sampleABC 1).2.1 (by decide) (by decide)⟩

/-! ### equalizeFiles component lemmas and claim C3 -/

theorem equalizeFiles_file1 (s : TableState) :
    (equalizeFiles s).file1_content =
      if s.file1_content.length < s.total_rows then
        s.file1_content ++ List.replicate (s.total_rows - s.file1_content.length) ""
      else s.file1_content := rfl

theorem equalizeFiles_file2 (s : TableState) :
    (equalizeFiles s).file2_content =
      if s.file2_content.length < s.total_rows then
        s.file2_content ++ List.replicate (s.total_rows - s.file2_content.length) ""
      else s.file2_content := rfl

theorem equalizeFiles_total (s : TableState) :
    (equalizeFiles s).total_rows = s.total_rows := rfl

/-- Claim C3: after `equalizeFiles()` on a store satisfying the data
model's invariant `totalRows = max(len1, len2)`, both columns have length
exactly `totalRows`, all padding lines are empty strings appended at the
end (positions at or beyond the original length), `totalRows` is
unchanged, and the spec scenario holds: after loading `["a","b","c"]` and
`["x","y"]` and equalizing, column 2 is `["x","y",""]`, column 1 is
unchanged in order, and `totalRows = 3`. -/
theorem equalizeFiles_spec (s : TableState) (hinv : StoreInv s) :
    ((equalizeFiles s).file1_content.length = s.total_rows
      ∧ (equalizeFiles s).file2_content.length = s.total_rows
      ∧ (equalizeFiles s).total_rows = s.total_rows
      ∧ (equalizeFiles s).file1_content =
          s.file1_content ++ List.replicate (s.total_rows - s.file1_content.length) ""
      ∧ (equalizeFiles s).file2_content =
          s.file2_content ++ List.replicate (s.total_rows - s.file2_content.length) "")
    ∧ (getContent scenarioLoaded 2 = ["x", "y", ""]
      ∧ getContent scenarioLoaded 1 = ["a", "b", "c"]
      ∧ scenarioLoaded.total_rows = 3) := by
  have hinv' : s.total_rows = max s.file1_content.length s.file2_content.length := hinv
  constructor
  · refine ⟨?_, ?_, equalizeFiles_total s, ?_, ?_⟩
    · rw [equalizeFiles_file1]
      split
      · simp only [List.length_append, List.length_replicate]
        omega
      · omega
    · rw [equalizeFiles_file2]
      split
      · simp only [List.length_append, List.length_replicate]
        omega
      · omega
    · rw [equalizeFiles_file1]
      split
      · rfl
      · have hz : s.total_rows - s.file1_content.length = 0 := by omega
        rw [hz]
        simp
    · rw [equalizeFiles_file2]
      split
      · rfl
      · have hz : s.total_rows - s.file2_content.length = 0 := by omega
        rw [hz]
        simp
  · exact ⟨by decide, by decide, by decide⟩

/-- Concrete instantiation of claim C3's theorem at the sample store. -/
theorem equalizeFiles_spec_witness :
    StoreInv sampleABC
    ∧ (((equalizeFiles sampleABC).file1_content.length = sampleABC.total_rows
        ∧ (equalizeFiles sampleABC).file2_content.length = sampleABC.total_rows
        ∧ (equalizeFiles sampleABC).total_rows = sampleABC.total_rows
        ∧ (equalizeFiles sampleABC).file1_content =
            sampleABC.file1_content ++
              List.replicate (sampleABC.total_rows - sampleABC.file1_content.length) ""
        ∧ (equalizeFiles sampleABC).file2_content =
            sampleABC.file2_content ++
              List.replicate (sampleABC.total_rows - sampleABC.file2_content.length) "")
      ∧ (getContent scenarioLoaded 2 = ["x", "y", ""]
        ∧ getContent scenarioLoaded 1 = ["a", "b", "c"]
        ∧ scenarioLoaded.total_rows = 3)) :=
  ⟨by decide, equalizeFiles_spec sampleABC (by decide)⟩

/-! ### moveRow component lemmas -/

theorem moveRow_fail (s : TableState) (ri : Int) (d : MoveDirection)
    (h : moveTarget ri d < 0 ∨ (s.total_rows : Int) ≤ moveTarget ri d) :
    moveRow s ri d = (false, s) := by
  simp only [moveRow]
  rw [if_pos h]

theorem moveRow_fst (s : TableState) (ri : Int) (d : MoveDirection)
    (h : ¬(moveTarget ri d < 0 ∨ (s.total_rows : Int) ≤ moveTarget ri d)) :
    (moveRow s ri d).1 = true := by
  simp only [moveRow]
  rw [if_neg h]

theorem moveRow_snd_file1 (s : TableState) (ri : Int) (d : MoveDirection)
    (h : ¬(moveTarget ri d < 0 ∨ (s.total_rows : Int) ≤ moveTarget ri d)) :
    (moveRow s ri d).2.file1_content =
      if ri < (s.file1_content.length : Int) ∧
          moveTarget ri d < (s.file1_content.length : Int) then
        pySwap s.file1_content ri (moveTarget ri d)
      else s.file1_content := by
  simp only [moveRow]
  rw [if_neg h]
  simp only [swapItemTexts_file1]

theorem moveRow_snd_file2 (s : TableState) (ri : Int) (d : MoveDirection)
    (h : ¬(moveTarget ri d < 0 ∨ (s.total_rows : Int) ≤ moveTarget ri d)) :
    (moveRow s ri d).2.file2_content =
      if ri < (s.file2_content.length : Int) ∧
          moveTarget ri d < (s.file2_content.length : Int) then
        pySwap s.file2_content ri (moveTarget ri d)
      else s.file2_content := by
  simp only [moveRow]
  rw [if_neg h]
  simp only [swapItemTexts_file2]

theorem moveRow_snd_total (s : TableState) (ri : Int) (d : MoveDirection)
    (h : ¬(moveTarget ri d < 0 ∨ (s.total_rows : Int) ≤ moveTarget ri d)) :
    (moveRow s ri d).2.total_rows = s.total_rows := by
  simp only [moveRow]
  rw [if_neg h]
  simp only [swapItemTexts_total]

theorem moveRow_snd_modified (s : TableState) (ri : Int) (d : MoveDirection)
    (h : ¬(moveTarget ri d < 0 ∨ (s.total_rows : Int) ≤ moveTarget ri d)) :
    (moveRow s ri d).2.modified_rows =
      insert (moveTarget ri d) (insert ri s.modified_rows) := by
  simp only [moveRow]
  rw [if_neg h]
  simp only [swapItemTexts_modified]

/-! ### handleCellChange component lemmas -/

theorem handleCellChange_modified (s : TableState) (row col : Nat) (text : String)
    (h : 0 < col) :
    (handleCellChange s row col text).modified_rows = insert (row : Int) s.modified_rows := by
  simp only [handleCellChange]
  rw [if_pos h]
  split
  · rfl
  · split
    · rfl
    · rfl

theorem handleCellChange_lengths (s : TableState) (row col : Nat) (text : String) :
    (handleCellChange s row col text).file1_content.length = s.file1_content.length
    ∧ (handleCellChange s row col text).file2_content.length = s.file2_content.length
    ∧ (handleCellChange s row col text).total_rows = s.total_rows := by
  simp only [handleCellChange]
  split
  · split
    · exact ⟨by simp, rfl, rfl⟩
    · split
      · exact ⟨rfl, by simp, rfl⟩
      · exact ⟨rfl, rfl, rfl⟩
  · exact ⟨rfl, rfl, rfl⟩

theorem handleCellChange_file1_set (s : TableState) (row : Nat) (text : String)
    (hlen : row < s.file1_content.length) :
    (handleCellChange s row 1 text).file1_content = s.file1_content.set row text := by
  simp only [handleCellChange, true_and]
  rw [if_pos (by omega : (0 : Nat) < 1)]
  rw [if_pos hlen]

theorem handleCellChange_file1_skip (s : TableState) (row : Nat) (text : String)
    (hlen : s.file1_content.length ≤ row) :
    (handleCellChange s row 1 text).file1_content = s.file1_content := by
  simp only [handleCellChange]
  rw [if_pos (by omega : (0 : Nat) < 1)]
  rw [if_neg (by rintro ⟨-, hb⟩; omega), if_neg (by rintro ⟨hb, -⟩; exact absurd hb (by decide))]

theorem handleCellChange_c1_file2 (s : TableState) (row : Nat) (text : String) :
    (handleCellChange s row 1 text).file2_content = s.file2_content := by
  simp only [handleCellChange]
  rw [if_pos (by omega : (0 : Nat) < 1)]
  split
  · rfl
  · split
    · rename_i hb
      exact absurd hb.1 (by decide)
    · rfl

theorem handleCellChange_file2_set (s : TableState) (row : Nat) (text : String)
    (hlen : row < s.file2_content.length) :
    (handleCellChange s row 2 text).file2_content = s.file2_content.set row text := by
  simp only [handleCellChange, true_and]
  rw [if_pos (by omega : (0 : Nat) < 2)]
  rw [if_neg (by rintro ⟨hb, -⟩; exact absurd hb (by decide))]
  rw [if_pos hlen]

theorem handleCellChange_file2_skip (s : TableState) (row : Nat) (text : String)
    (hlen : s.file2_content.length ≤ row) :
    (handleCellChange s row 2 text).file2_content = s.file2_content := by
  simp only [handleCellChange]
  rw [if_pos (by omega : (0 : Nat) < 2)]
  rw [if_neg (by rintro ⟨hb, -⟩; exact absurd hb (by decide)), if_neg (by rintro ⟨-, hb⟩; omega)]

theorem handleCellChange_c2_file1 (s : TableState) (row : Nat) (text : String) :
    (handleCellChange s row 2 text).file1_content = s.file1_content := by
  simp only [handleCellChange]
  rw [if_pos (by omega : (0 : Nat) < 2)]
  split
  · rename_i hb
    exact absurd hb.1 (by decide)
  · split
    · rfl
    · rfl

theorem moveRow_lengths (s : TableState) (i : Int) (d : MoveDirection) :
    (moveRow s i d).2.file1_content.length = s.file1_content.length
    ∧ (moveRow s i d).2.file2_content.length = s.file2_content.length
    ∧ (moveRow s i d).2.total_rows = s.total_rows := by
  by_cases hg : moveTarget i d < 0 ∨ (s.total_rows : Int) ≤ moveTarget i d
  · rw [moveRow_fail s i d hg]
    exact ⟨rfl, rfl, rfl⟩
  · refine ⟨?_, ?_, moveRow_snd_total s i d hg⟩
    · rw [moveRow_snd_file1 s i d hg]
      split
      · exact pySwap_length _ _ _
      · rfl
    · rw [moveRow_snd_file2 s i d hg]
      split
      · exact pySwap_length _ _ _
      · rfl

/-- Counterexample to claim C4 as stated.  The claim quantifies over every
index `i` and makes the target bound the only failure condition; at
`i = -1` with direction down the target `0` is in bounds, so the claim
asserts a swap of rows `-1` and `0` — which would leave every other row
unchanged — yet the source succeeds and Python negative indexing swaps
the LAST row with row 0: row 2 (neither `i` nor the target) changes from
`"c"` to `"a"` in column 1 (and symmetrically in column 2). -/
theorem moveRow_negative_index_cex :
    (moveRow sampleXYZ (-1) MoveDirection.down).1 = true
    ∧ (moveRow sampleXYZ (-1) MoveDirection.down).2.file1_content = ["c", "b", "a"]
    ∧ (moveRow sampleXYZ (-1) MoveDirection.down).2.file2_content = ["z", "y", "x"]
    ∧ sampleXYZ.file1_content = ["a", "b", "c"] :=
  ⟨by decide, by decide, by decide, by decide⟩

/-- Claim C4 (amended): on an equalized state (both columns of length
`totalRows`) and for a row index `0 ≤ i < totalRows`, with target
`t = i-1` (up) / `t = i+1` (down): if `t < 0` or `t ≥ totalRows` the call
is a no-op returning failure; otherwise it succeeds, inserts both `i` and
`t` into `modified_rows`, keeps `totalRows`, and swaps rows `i` and `t`
across both columns simultaneously — pointwise: position `i` receives row
`t`'s line, position `t` receives row `i`'s line, every other position is
unchanged, and lengths are preserved. -/
theorem moveRow_spec (s : TableState) (i : Int) (d : MoveDirection)
    (h1 : s.file1_content.length = s.total_rows)
    (h2 : s.file2_content.length = s.total_rows)
    (hi0 : 0 ≤ i) (hi : i < (s.total_rows : Int)) :
    (moveTarget i d < 0 ∨ (s.total_rows : Int) ≤ moveTarget i d →
      moveRow s i d = (false, s))
    ∧ (0 ≤ moveTarget i d → moveTarget i d < (s.total_rows : Int) →
        (moveRow s i d).1 = true
        ∧ (moveRow s i d).2.modified_rows =
            insert (moveTarget i d) (insert i s.modified_rows)
        ∧ (moveRow s i d).2.total_rows = s.total_rows
        ∧ ∀ col, col = 1 ∨ col = 2 →
            (getContent (moveRow s i d).2 col).length = (getContent s col).length
            ∧ (getContent (moveRow s i d).2 col).getD i.toNat "" =
                (getContent s col).getD (moveTarget i d).toNat ""
            ∧ (getContent (moveRow s i d).2 col).getD (moveTarget i d).toNat "" =
                (getContent s col).getD i.toNat ""
            ∧ ∀ k : Nat, k ≠ i.toNat → k ≠ (moveTarget i d).toNat →
                (getContent (moveRow s i d).2 col).getD k "" =
                  (getContent s col).getD k "") := by
  refine ⟨fun h => moveRow_fail s i d h, fun ht0 ht1 => ?_⟩
  have hg : ¬(moveTarget i d < 0 ∨ (s.total_rows : Int) ≤ moveTarget i d) := by omega
  have hne : i ≠ moveTarget i d := by
    unfold moveTarget
    split <;> omega
  refine ⟨moveRow_fst s i d hg, moveRow_snd_modified s i d hg,
    moveRow_snd_total s i d hg, ?_⟩
  intro col hcol
  rcases hcol with hcol | hcol <;> subst hcol
  · have hga : getContent (moveRow s i d).2 1 = (moveRow s i d).2.file1_content := rfl
    have hgb : getContent s 1 = s.file1_content := rfl
    have hcond : i < (s.file1_content.length : Int) ∧
        moveTarget i d < (s.file1_content.length : Int) := by
      constructor <;> omega
    have hfile : (moveRow s i d).2.file1_content =
        pySwap s.file1_content i (moveTarget i d) := by
      rw [moveRow_snd_file1 s i d hg, if_pos hcond]
    refine ⟨?_, ?_, ?_, ?_⟩
    · rw [hga, hgb, hfile, pySwap_length]
    · rw [hga, hgb, hfile]
      exact pySwap_getD_fst s.file1_content i (moveTarget i d) hi0 ht0 hne (by omega)
    · rw [hga, hgb, hfile]
      exact pySwap_getD_snd s.file1_content i (moveTarget i d) hi0 ht0 (by omega)
    · intro k hk1 hk2
      rw [hga, hgb, hfile]
      exact pySwap_getD_other s.file1_content i (moveTarget i d) hi0 ht0 k hk1 hk2
  · have hga : getContent (moveRow s i d).2 2 = (moveRow s i d).2.file2_content := rfl
    have hgb : getContent s 2 = s.file2_content := rfl
    have hcond : i < (s.file2_content.length : Int) ∧
        moveTarget i d < (s.file2_content.length : Int) := by
      constructor <;> omega
    have hfile : (moveRow s i d).2.file2_content =
        pySwap s.file2_content i (moveTarget i d) := by
      rw [moveRow_snd_file2 s i d hg, if_pos hcond]
    refine ⟨?_, ?_, ?_, ?_⟩
    · rw [hga, hgb, hfile, pySwap_length]
    · rw [hga, hgb, hfile]
      exact pySwap_getD_fst s.file2_content i (moveTarget i d) hi0 ht0 hne (by omega)
    · rw [hga, hgb, hfile]
      exact pySwap_getD_snd s.file2_content i (moveTarget i d) hi0 ht0 (by omega)
    · intro k hk1 hk2
      rw [hga, hgb, hfile]
      exact pySwap_getD_other s.file2_content i (moveTarget i d) hi0 ht0 k hk1 hk2

/-- Concrete instantiation of claim C4's amended theorem: moving row 1 up
in the equalized three-row sample store. -/
theorem moveRow_spec_witness :
    sampleXYZ.file1_content.length = sampleXYZ.total_rows
    ∧ sampleXYZ.file2_content.length = sampleXYZ.total_rows
    ∧ (0 : Int) ≤ 1
    ∧ (1 : Int) < (sampleXYZ.total_rows : Int)
    ∧ (0 : Int) ≤ moveTarget 1 MoveDirection.up
    ∧ moveTarget 1 MoveDirection.up < (sampleXYZ.total_rows : Int)
    ∧ ((moveRow sampleXYZ 1 MoveDirection.up).1 = true
      ∧ (moveRow sampleXYZ 1 MoveDirection.up).2.modified_rows =
          insert (moveTarget 1 MoveDirection.up) (insert 1 sampleXYZ.modified_rows)
      ∧ (moveRow sampleXYZ 1 MoveDirection.up).2.total_rows = sampleXYZ.total_rows
      ∧ ∀ col, col = 1 ∨ col = 2 →
          (getContent (moveRow sampleXYZ 1 MoveDirection.up).2 col).length =
            (getContent sampleXYZ col).length
          ∧ (getContent (moveRow sampleXYZ 1 MoveDirection.up).2 col).getD (1 : Int).toNat "" =
              (getContent sampleXYZ col).getD (moveTarget 1 MoveDirection.up).toNat ""
          ∧ (getContent (moveRow sampleXYZ 1 MoveDirection.up).2 col).getD
                (moveTarget 1 MoveDirection.up).toNat "" =
              (getContent sampleXYZ col).getD (1 : Int).toNat ""
          ∧ ∀ k : Nat, k ≠ (1 : Int).toNat → k ≠ (moveTarget 1 MoveDirection.up).toNat →
              (getContent (moveRow sampleXYZ 1 MoveDirection.up).2 col).getD k "" =
                (getContent sampleXYZ col).getD k "") :=
  ⟨by decide, by decide, by decide, by decide, by decide, by decide,
    (moveRow_spec sampleXYZ 1 MoveDirection.up (by decide) (by decide) (by decide)
      (by decide)).2 (by decide) (by decide)⟩

/-- Claim C6: `moveRow(i, up)` followed by `moveRow(i-1, down)` restores
the original contents of both columns — the stored line sequences are
fully restored (the two indices remain marked in `modified_rows`, as the
moveLine contract itself specifies). -/
theorem moveRow_roundtrip (s : TableState) (i : Nat) (hlo : 1 ≤ i)
    (hhi : i ≤ s.total_rows - 1) :
    (moveRow (moveRow s (i : Int) MoveDirection.up).2 ((i : Int) - 1)
        MoveDirection.down).2.file1_content = s.file1_content
    ∧ (moveRow (moveRow s (i : Int) MoveDirection.up).2 ((i : Int) - 1)
        MoveDirection.down).2.file2_content = s.file2_content := by
  have htot : 2 ≤ s.total_rows := by omega
  have ht_up : moveTarget (i : Int) MoveDirection.up = (i : Int) - 1 := by
    unfold moveTarget
    rw [if_pos rfl]
  have ht_down : moveTarget ((i : Int) - 1) MoveDirection.down = (i : Int) := by
    unfold moveTarget
    rw [if_neg (by decide)]
    omega
  have hg1 : ¬(moveTarget (i : Int) MoveDirection.up < 0 ∨
      (s.total_rows : Int) ≤ moveTarget (i : Int) MoveDirection.up) := by
    rw [ht_up]
    omega
  have htot1 : (moveRow s (i : Int) MoveDirection.up).2.total_rows = s.total_rows :=
    moveRow_snd_total s _ _ hg1
  have hg2 : ¬(moveTarget ((i : Int) - 1) MoveDirection.down < 0 ∨
      ((moveRow s (i : Int) MoveDirection.up).2.total_rows : Int) ≤
        moveTarget ((i : Int) - 1) MoveDirection.down) := by
    rw [ht_down, htot1]
    omega
  have hf1 : (moveRow s (i : Int) MoveDirection.up).2.file1_content =
      if (i : Int) < (s.file1_content.length : Int) ∧
          (i : Int) - 1 < (s.file1_content.length : Int) then
        pySwap s.file1_content (i : Int) ((i : Int) - 1)
      else s.file1_content := by
    rw [moveRow_snd_file1 s _ _ hg1, ht_up]
  have hf2 : (moveRow s (i : Int) MoveDirection.up).2.file2_content =
      if (i : Int) < (s.file2_content.length : Int) ∧
          (i : Int) - 1 < (s.file2_content.length : Int) then
        pySwap s.file2_content (i : Int) ((i : Int) - 1)
      else s.file2_content := by
    rw [moveRow_snd_file2 s _ _ hg1, ht_up]
  constructor
  · rw [moveRow_snd_file1 _ _ _ hg2, ht_down]
    by_cases hc : (i : Int) < (s.file1_content.length : Int)
    · have hlen1 : (moveRow s (i : Int) MoveDirection.up).2.file1_content =
          pySwap s.file1_content (i : Int) ((i : Int) - 1) := by
        rw [hf1, if_pos ⟨hc, by omega⟩]
      have hL : (moveRow s (i : Int) MoveDirection.up).2.file1_content.length =
          s.file1_content.length := by
        rw [hlen1, pySwap_length]
      rw [if_pos (by rw [hL]; exact ⟨by omega, hc⟩), hlen1]
      exact pySwap_pySwap s.file1_content (i : Int) ((i : Int) - 1) (by omega) (by omega)
        (by omega) hc (by omega)
    · have hlen1 : (moveRow s (i : Int) MoveDirection.up).2.file1_content =
          s.file1_content := by
        rw [hf1, if_neg (fun h => hc h.1)]
      rw [if_neg (by rw [hlen1]; rintro ⟨-, hb⟩; omega), hlen1]
  · rw [moveRow_snd_file2 _ _ _ hg2, ht_down]
    by_cases hc : (i : Int) < (s.file2_content.length : Int)
    · have hlen1 : (moveRow s (i : Int) MoveDirection.up).2.file2_content =
          pySwap s.file2_content (i : Int) ((i : Int) - 1) := by
        rw [hf2, if_pos ⟨hc, by omega⟩]
      have hL : (moveRow s (i : Int) MoveDirection.up).2.file2_content.length =
          s.file2_content.length := by
        rw [hlen1, pySwap_length]
      rw [if_pos (by rw [hL]; exact ⟨by omega, hc⟩), hlen1]
      exact pySwap_pySwap s.file2_content (i : Int) ((i : Int) - 1) (by omega) (by omega)
        (by omega) hc (by omega)
    · have hlen1 : (moveRow s (i : Int) MoveDirection.up).2.file2_content =
          s.file2_content := by
        rw [hf2, if_neg (fun h => hc h.1)]
      rw [if_neg (by rw [hlen1]; rintro ⟨-, hb⟩; omega), hlen1]

/-- Concrete instantiation of claim C6's theorem: the round trip at row 1
of the three-row sample store. -/
theorem moveRow_roundtrip_witness :
    1 ≤ 1 ∧ 1 ≤ sampleXYZ.total_rows - 1
    ∧ ((moveRow (moveRow sampleXYZ (1 : Int) MoveDirection.up).2 ((1 : Int) - 1)
          MoveDirection.down).2.file1_content = sampleXYZ.file1_content
      ∧ (moveRow (moveRow sampleXYZ (1 : Int) MoveDirection.up).2 ((1 : Int) - 1)
          MoveDirection.down).2.file2_content = sampleXYZ.file2_content) :=
  ⟨by decide, by decide, moveRow_roundtrip sampleXYZ 1 (by decide) (by decide)⟩

/-- Counterexample to claim C5: at `sampleOne` (one row, empty modified
set) the index 5 is `≥ totalRows = 1`, so the claim requires a failure
that leaves `modified_rows` unchanged; the source instead returns
normally and inserts 5 into `modified_rows` (the store itself is left
unchanged). -/
theorem handleCellChange_out_of_range_cex :
    sampleOne.total_rows = 1
    ∧ sampleOne.modified_rows = ∅
    ∧ (handleCellChange sampleOne 5 1 "z").modified_rows = {(5 : Int)}
    ∧ (handleCellChange sampleOne 5 1 "z").file1_content = sampleOne.file1_content
    ∧ (handleCellChange sampleOne 5 1 "z").file2_content = sampleOne.file2_content :=
  ⟨by decide, by decide, by decide, by decide, by decide⟩

/-- Claim C5 (amended): a single-cell edit on a content column always
inserts the row index into `modified_rows` and never fails — there is no
`IndexOutOfRange` path.  The stored line at `(column, index)` is set to
the new text exactly when the index is below that column's length (equal
to `totalRows` in an equalized store); an out-of-range index leaves both
columns (and `totalRows`) unchanged while still being recorded as
modified. -/
theorem handleCellChange_spec (s : TableState) (row col : Nat) (text : String)
    (hcol : col = 1 ∨ col = 2) :
    (handleCellChange s row col text).modified_rows = insert (row : Int) s.modified_rows
    ∧ (handleCellChange s row col text).total_rows = s.total_rows
    ∧ (col = 1 →
        (row < s.file1_content.length →
          (handleCellChange s row col text).file1_content = s.file1_content.set row text)
        ∧ (s.file1_content.length ≤ row →
          (handleCellChange s row col text).file1_content = s.file1_content)
        ∧ (handleCellChange s row col text).file2_content = s.file2_content)
    ∧ (col = 2 →
        (row < s.file2_content.length →
          (handleCellChange s row col text).file2_content = s.file2_content.set row text)
        ∧ (s.file2_content.length ≤ row →
          (handleCellChange s row col text).file2_content = s.file2_content)
        ∧ (handleCellChange s row col text).file1_content = s.file1_content) := by
  have h0 : 0 < col := by rcases hcol with h | h <;> omega
  refine ⟨handleCellChange_modified s row col text h0,
    (handleCellChange_lengths s row col text).2.2, ?_, ?_⟩
  · rintro rfl
    exact ⟨fun h => handleCellChange_file1_set s row text h,
      fun h => handleCellChange_file1_skip s row text h,
      handleCellChange_c1_file2 s row text⟩
  · rintro rfl
    exact ⟨fun h => handleCellChange_file2_set s row text h,
      fun h => handleCellChange_file2_skip s row text h,
      handleCellChange_c2_file1 s row text⟩

/-- Concrete instantiation of claim C5's amended theorem: editing cell
`(0, 1)` of the one-row sample store. -/
theorem handleCellChange_spec_witness :
    ((1 : Nat) = 1 ∨ (1 : Nat) = 2)
    ∧ ((handleCellChange sampleOne 0 1 "z").modified_rows =
        insert (0 : Int) sampleOne.modified_rows
      ∧ (handleCellChange sampleOne 0 1 "z").total_rows = sampleOne.total_rows
      ∧ ((1 : Nat) = 1 →
          (0 < sampleOne.file1_content.length →
            (handleCellChange sampleOne 0 1 "z").file1_content =
              sampleOne.file1_content.set 0 "z")
          ∧ (sampleOne.file1_content.length ≤ 0 →
            (handleCellChange sampleOne 0 1 "z").file1_content = sampleOne.file1_content)
          ∧ (handleCellChange sampleOne 0 1 "z").file2_content = sampleOne.file2_content)
      ∧ ((1 : Nat) = 2 →
          (0 < sampleOne.file2_content.length →
            (handleCellChange sampleOne 0 1 "z").file2_content =
              sampleOne.file2_content.set 0 "z")
          ∧ (sampleOne.file2_content.length ≤ 0 →
            (handleCellChange sampleOne 0 1 "z").file2_content = sampleOne.file2_content)
          ∧ (handleCellChange sampleOne 0 1 "z").file1_content = sampleOne.file1_content)) :=
  ⟨Or.inl rfl, handleCellChange_spec sampleOne 0 1 "z" (Or.inl rfl)⟩

/-- Claim C10 (implicit frame condition): a single-cell edit and a
`moveRow` — for every state and all arguments, including failing moves
and the line-number column — leave the lengths of both stored columns
and the value of `totalRows` unchanged. -/
theorem edit_and_move_preserve_lengths (s : TableState) (row col : Nat) (text : String)
    (i : Int) (d : MoveDirection) :
    (handleCellChange s row col text).file1_content.length = s.file1_content.length
    ∧ (handleCellChange s row col text).file2_content.length = s.file2_content.length
    ∧ (handleCellChange s row col text).total_rows = s.total_rows
    ∧ (moveRow s i d).2.file1_content.length = s.file1_content.length
    ∧ (moveRow s i d).2.file2_content.length = s.file2_content.length
    ∧ (moveRow s i d).2.total_rows = s.total_rows := by
  obtain ⟨ha, hb, hc⟩ := handleCellChange_lengths s row col text
  obtain ⟨ma, mb, mc⟩ := moveRow_lengths s i d
  exact ⟨ha, hb, hc, ma, mb, mc⟩

/-! ### Invariant preservation lemmas and claim C7 -/

theorem setContentFromFile_inv (s : TableState) (column : Nat) (content : List String)
    (v0 v1 : Nat) : StoreInv (setContentFromFile s column content v0 v1) := by
  show (setContentFromFile s column content v0 v1).total_rows = _
  simp only [setContentFromFile]
  rw [loadVisibleRows_total, loadVisibleRows_file1, loadVisibleRows_file2]

theorem equalizeFiles_inv (s : TableState) (h : StoreInv s) :
    StoreInv (equalizeFiles s) := by
  have h' : s.total_rows = max s.file1_content.length s.file2_content.length := h
  show (equalizeFiles s).total_rows = _
  rw [equalizeFiles_total, equalizeFiles_file1, equalizeFiles_file2]
  split <;> split <;> (try simp only [List.length_append, List.length_replicate]) <;> omega

theorem handleCellChange_inv (s : TableState) (row col : Nat) (text : String)
    (h : StoreInv s) : StoreInv (handleCellChange s row col text) := by
  obtain ⟨h1, h2, h3⟩ := handleCellChange_lengths s row col text
  show (handleCellChange s row col text).total_rows = _
  rw [h1, h2, h3]
  exact h

theorem moveRow_inv (s : TableState) (i : Int) (d : MoveDirection) (h : StoreInv s) :
    StoreInv (moveRow s i d).2 := by
  obtain ⟨h1, h2, h3⟩ := moveRow_lengths s i d
  show (moveRow s i d).2.total_rows = _
  rw [h1, h2, h3]
  exact h

theorem deleteRow_inv (s : TableState) (i : Int) (h : StoreInv s) :
    StoreInv (deleteRow s i).2 := by
  by_cases hg : i < 0 ∨ (s.total_rows : Int) ≤ i
  · rw [deleteRow_fail s i hg]
    exact h
  · have h' : s.total_rows = max s.file1_content.length s.file2_content.length := h
    have hn : i.toNat < s.total_rows := by omega
    show (deleteRow s i).2.total_rows = _
    rw [deleteRow_snd_total s i hg, deleteRow_snd_file1 s i hg, deleteRow_snd_file2 s i hg]
    split <;> split <;> (try simp only [List.length_eraseIdx]) <;> (try split) <;> omega

theorem addEmptyRow_snd_file1 (s : TableState) (lv : Nat) :
    (addEmptyRow s lv).2.file1_content = s.file1_content ++ [""] := by
  simp only [addEmptyRow]
  split
  · simp
  · rfl

theorem addEmptyRow_snd_file2 (s : TableState) (lv : Nat) :
    (addEmptyRow s lv).2.file2_content = s.file2_content ++ [""] := by
  simp only [addEmptyRow]
  split
  · simp
  · rfl

theorem addEmptyRow_snd_total (s : TableState) (lv : Nat) :
    (addEmptyRow s lv).2.total_rows = s.total_rows + 1 := by
  simp only [addEmptyRow]
  split
  · simp
  · rfl

theorem addEmptyRow_inv (s : TableState) (lv : Nat) (h : StoreInv s) :
    StoreInv (addEmptyRow s lv).2 := by
  have h' : s.total_rows = max s.file1_content.length s.file2_content.length := h
  show (addEmptyRow s lv).2.total_rows = _
  rw [addEmptyRow_snd_total, addEmptyRow_snd_file1, addEmptyRow_snd_file2]
  simp only [List.length_append, List.length_cons, List.length_nil]
  omega

theorem reloadClear_inv (s : TableState) : StoreInv (reloadClear s) := by
  show (reloadClear s).total_rows = _
  simp [reloadClear, TableState.setRowCount]

/-- Claim C7: under the Line Store invariant
`totalRows = max(len(col1), len(col2))`, `totalRows` is at least either
column length, and the invariant is established by the bulk load
`setContentFromFile` (for any column and viewport) and preserved by
`equalizeFiles`, a single-cell edit, `moveRow`, `deleteRow`,
`addEmptyRow`, and the reset performed on reload. -/
theorem totalRows_invariant_preserved (s : TableState) (hinv : StoreInv s) :
    s.file1_content.length ≤ s.total_rows
    ∧ s.file2_content.length ≤ s.total_rows
    ∧ (∀ column content v0 v1, StoreInv (setContentFromFile s column content v0 v1))
    ∧ StoreInv (equalizeFiles s)
    ∧ (∀ row col text, StoreInv (handleCellChange s row col text))
    ∧ (∀ i d, StoreInv (moveRow s i d).2)
    ∧ (∀ i, StoreInv (deleteRow s i).2)
    ∧ (∀ lv, StoreInv (addEmptyRow s lv).2)
    ∧ StoreInv (reloadClear s) := by
  have h' : s.total_rows = max s.file1_content.length s.file2_content.length := hinv
  exact ⟨by omega, by omega,
    fun column content v0 v1 => setContentFromFile_inv s column content v0 v1,
    equalizeFiles_inv s hinv,
    fun row col text => handleCellChange_inv s row col text hinv,
    fun i d => moveRow_inv s i d hinv,
    fun i => deleteRow_inv s i hinv,
    fun lv => addEmptyRow_inv s lv hinv,
    reloadClear_inv s⟩

/-- Concrete instantiation of claim C7's theorem at the sample store,
applying each preserved operation once. -/
theorem totalRows_invariant_witness :
    StoreInv sampleABC
    ∧ StoreInv (setContentFromFile sampleABC 1 ["p", "q"] 0 0)
    ∧ StoreInv (equalizeFiles sampleABC)
    ∧ StoreInv (handleCellChange sampleABC 0 1 "z")
    ∧ StoreInv (moveRow sampleABC 1 MoveDirection.up).2
    ∧ StoreInv (deleteRow sampleABC 1).2
    ∧ StoreInv (addEmptyRow sampleABC 0).2
    ∧ StoreInv (reloadClear sampleABC) :=
  ⟨by decide,
    (totalRows_invariant_preserved sampleABC (by decide)).2.2.1 1 ["p", "q"] 0 0,
    (totalRows_invariant_preserved sampleABC (by decide)).2.2.2.1,
    (totalRows_invariant_preserved sampleABC (by decide)).2.2.2.2.1 0 1 "z",
    (totalRows_invariant_preserved sampleABC (by decide)).2.2.2.2.2.1 1 MoveDirection.up,
    (totalRows_invariant_preserved sampleABC (by decide)).2.2.2.2.2.2.1 1,
    (totalRows_invariant_preserved sampleABC (by decide)).2.2.2.2.2.2.2.1 0,
    (totalRows_invariant_preserved sampleABC (by decide)).2.2.2.2.2.2.2.2⟩

/-! ### Save-path equivalence (claim C8) -/

theorem pyJoin_cons (sep x : String) (ys : List String) (hy : ys ≠ []) :
    pyJoin sep (x :: ys) = x ++ sep ++ pyJoin sep ys := by
  cases ys with
  | nil => exact absurd rfl hy
  | cons y ys2 => rfl

theorem pyJoin_append (sep : String) :
    ∀ (xs : List String), xs ≠ [] → ∀ ys : List String, ys ≠ [] →
      pyJoin sep (xs ++ ys) = pyJoin sep xs ++ sep ++ pyJoin sep ys := by
  intro xs
  induction xs with
  | nil => intro h; exact absurd rfl h
  | cons x xs ih =>
      intro _ ys hy
      cases xs with
      | nil =>
          rw [List.singleton_append, pyJoin_cons sep x ys hy]
          rfl
      | cons x2 xs2 =>
          rw [List.cons_append, pyJoin_cons sep x ((x2 :: xs2) ++ ys) (by simp),
            ih (by simp) ys hy, pyJoin_cons sep x (x2 :: xs2) (by simp)]
          simp only [String.append_assoc]

/-- Claim C8: for every column content list, the batched save loop (batch
size 1000) writes exactly the same character sequence as the unbatched
single write of `join(content, "\n")` — no extra blank line at the end. -/
theorem batchedWrite_eq_plainWrite : ∀ content : List String,
    batchedWrite content = plainWrite content := by
  have main : ∀ (n : Nat) (l : List String), l.length ≤ n →
      batchedWrite l = pyJoin "\n" l := by
    intro n
    induction n with
    | zero =>
        intro l hl
        have hnil : l = [] := List.eq_nil_of_length_eq_zero (by omega)
        subst hnil
        rw [batchedWrite]
        simp [pyJoin]
    | succ n ih =>
        intro l hl
        rw [batchedWrite]
        by_cases hnil : l.isEmpty
        · rw [if_pos hnil, List.isEmpty_iff.mp hnil]
          rfl
        · rw [if_neg hnil]
          have hne : l ≠ [] := by simpa [List.isEmpty_iff] using hnil
          by_cases hlen : batch_size < l.length
          · rw [dif_pos hlen]
            rw [ih (l.drop batch_size)
              (by
                have hb : batch_size = 1000 := rfl
                simp only [List.length_drop]
                omega)]
            have htake : l.take batch_size ≠ [] := by
              simp [List.take_eq_nil_iff, hne, batch_size]
            have hdrop : l.drop batch_size ≠ [] := by
              simp only [ne_eq, List.drop_eq_nil_iff]
              omega
            calc
              pyJoin "\n" (l.take batch_size) ++ ("\n" ++ pyJoin "\n" (l.drop batch_size))
                  = pyJoin "\n" (l.take batch_size) ++ "\n" ++
                      pyJoin "\n" (l.drop batch_size) := by
                    rw [String.append_assoc]
              _ = pyJoin "\n" (l.take batch_size ++ l.drop batch_size) :=
                    (pyJoin_append "\n" (l.take batch_size) htake (l.drop batch_size) hdrop).symm
              _ = pyJoin "\n" l := by rw [List.take_append_drop]
          · rw [dif_neg hlen]
            rw [List.take_of_length_le (by omega)]
            rw [String.append_empty]
  intro content
  exact main content.length content (le_refl _)

/-! ### Load-worker cancellation (claim C9) -/

theorem load_file_loop_take :
    ∀ (lines : List String) (i : Nat) (isCanceled : Nat → Bool) (k : Nat),
      i ≤ k → (∀ j, j < k → isCanceled j = false) → isCanceled k = true →
      load_file_loop lines i isCanceled = lines.take (k - i) := by
  intro lines
  induction lines with
  | nil => intro i c k _ _ _; simp [load_file_loop]
  | cons line rest ih =>
      intro i c k hik hprev hk
      by_cases hi : i = k
      · subst hi
        simp only [load_file_loop]
        rw [hk]
        simp
      · have hilt : i < k := by omega
        simp only [load_file_loop]
        rw [hprev i hilt]
        have hsub : k - i = (k - (i + 1)) + 1 := by omega
        rw [hsub]
        simp only [Bool.false_eq_true, if_false, List.take_succ_cons]
        rw [ih (i + 1) c k (by omega) hprev hk]

/-- Claim C9: when the cooperative cancellation flag (sampled once per
line) is first observed set at iteration `k`, the load worker stops
reading early and emits the completion signal with exactly the prefix of
`k` lines read so far; it never emits the error signal for a cancelled
load of a readable file. -/
theorem load_file_cancel_spec (lines : List String) (isCanceled : Nat → Bool) (k : Nat)
    (hprev : ∀ j, j < k → isCanceled j = false) (hk : isCanceled k = true) :
    load_file lines isCanceled = LoadOutcome.finished (lines.take k)
    ∧ ∀ msg, load_file lines isCanceled ≠ LoadOutcome.loadError msg := by
  constructor
  · unfold load_file
    rw [load_file_loop_take lines 0 isCanceled k (by omega) hprev hk, Nat.sub_zero]
  · intro msg
    unfold load_file
    exact fun h => LoadOutcome.noConfusion h

/-- Concrete instantiation of claim C9's theorem: a three-line file with
the flag observed set from iteration 2 onwards. -/
theorem load_file_cancel_witness :
    (∀ j, j < 2 → (fun j => decide (2 ≤ j)) j = false)
    ∧ (fun j => decide (2 ≤ j)) 2 = true
    ∧ (load_file ["l1", "l2", "l3"] (fun j => decide (2 ≤ j)) =
        LoadOutcome.finished ((["l1", "l2", "l3"] : List String).take 2)
      ∧ ∀ msg, load_file ["l1", "l2", "l3"] (fun j => decide (2 ≤ j)) ≠
          LoadOutcome.loadError msg) :=
  ⟨by decide, by decide,
    load_file_cancel_spec ["l1", "l2", "l3"] (fun j => decide (2 ≤ j)) 2
      (by decide) (by decide)⟩

end CanicheAligner
